import Mathlib

set_option maxHeartbeats 1000000
set_option maxRecDepth 8000

deriving instance DecidableEq for Except

/-!
Shallow embedding of `demo/file_server.cpp`, the static-file HTTP server of
this repository.  The asynchronous I/O service (`io_service.hpp`,
`when.hpp`) and the mime table (`mime_dicts.hpp`) are not part of the
sources; their contract (all-complete combinator, causal link tag,
error-to-exception conversion) is modelled from the spec where noted.
Each connection's behaviour is embedded as a pure function producing the
ordered list of observable I/O events of that connection's coroutine.
-/

namespace FileServer

/-- Window capacity of the streaming pipeline and size of the receive
buffer (`BUF_SIZE` in `file_server.cpp`). -/
def BUF_SIZE : Nat := 1024

/-- Value of `std::string_view::npos`, returned by `find` on failure
(`size_t(-1)` on a 64-bit target). -/
def NPOS : Nat := 2 ^ 64 - 1

/-- The fixed zero-body 404 payload (`http_404_hdr` in `file_server.cpp`). -/
def http_404_hdr : String := "HTTP/1.1 404 Not Found\r\nContent-Length: 0\r\n\r\n"

/-- The fixed zero-body 400 payload (`http_400_hdr` in `file_server.cpp`). -/
def http_400_hdr : String := "HTTP/1.1 400 Bad Request\r\nContent-Length: 0\r\n\r\n"

/-- The 200 header built by `fmt::format("HTTP/1.1 200 OK\r\nContent-type:
{}\r\nContent-Length: {}\r\n\r\n", contentType, st.st_size)`. -/
def http_200_hdr (contentType : String) (size : Nat) : String :=
  "HTTP/1.1 200 OK\r\nContent-type: " ++ contentType ++ "\r\nContent-Length: "
    ++ toString size ++ "\r\n\r\n"

/-- Combined outcome of `openat` + `fstat` + `S_ISREG` for one filename:
the abstract file-system state that `http_send_file` consults.  `regular
content` is an existing regular file whose bytes at stat time are
`content` (so `st.st_size = content.length`). -/
inductive OpenResult where
  | openFail
  | statFail
  | notRegular
  | regular (content : List Nat)
deriving DecidableEq

/-- Failures a connection's coroutine can raise: `std::out_of_range` from
`std::string_view::substr`, and (modelled from the spec, §6/§7(c): any
asynchronous primitive returning a negative result surfaces as an
exception caught at the handler boundary) a failed receive (`transport`)
or a failed send/read while responding (`io`). -/
inductive SrvError where
  | outOfRange
  | transport
  | io
deriving DecidableEq

/-- Observable events of one connection's coroutine, in program/completion
order.  Modelled from the spec for the I/O-service parts: the
all-complete combinator resumes the coroutine only after both members of
a window's read/send pair completed, and the causal link tag on the send
defers its dispatch until the read completes, so within one window the
order is read issue, send issue (submitted together), read completion,
send completion. -/
inductive Ev where
  | openEv (name : String)
  | strSendIssue (s : String)
  | strSendDone (s : String)
  | readIssue (w offset len : Nat)
  | sendIssue (w len : Nat)
  | readDone (w offset len : Nat)
  | sendDone (w : Nat) (bytes : List Nat)
  | delayEv
  | closeInfd
  | closeClient
  | incrCount
  | decrCount
  | logCrash
deriving DecidableEq

/-- Window index carried by a pipeline event, if any. -/
def winOf : Ev → Option Nat
  | .readIssue w _ _ => some w
  | .sendIssue w _ => some w
  | .readDone w _ _ => some w
  | .sendDone w _ => some w
  | _ => none

/-- Pipeline-loop events (read/send pairs and the debug delay). -/
def isPipeEv : Ev → Bool
  | .readIssue _ _ _ | .sendIssue _ _ | .readDone _ _ _ | .sendDone _ _
  | .delayEv => true
  | _ => false

/-- Body-transfer events of the pipeline (window read/send operations). -/
def isBodyEv : Ev → Bool
  | .readIssue _ _ _ | .sendIssue _ _ | .readDone _ _ _ | .sendDone _ _ => true
  | _ => false

/-- Events emitted by the connection handler itself, never by `serve`. -/
def isHandlerEv : Ev → Bool
  | .closeClient | .incrCount | .decrCount | .logCrash => true
  | _ => false

/-- Bytes placed in the window buffer by `readv(infd, { iov }, offset)`:
the file's bytes at `offset`, up to the iov length. -/
def winBytes (content : List Nat) (offset len : Nat) : List Nat :=
  (content.drop offset).take len

/-- One loop iteration's `when_all` pair: `readv` and the causally linked
`sendmsg` are submitted together; the read completes first (link tag),
then the send, and only then does the combinator resume the caller. -/
def winPair (w offset len : Nat) (content : List Nat) : List Ev :=
  [Ev.readIssue w offset len, Ev.sendIssue w len,
   Ev.readDone w offset len, Ev.sendDone w (winBytes content offset len)]

/-- Body-streaming loop of `http_send_file` (`for (; st.st_size - offset >
BUF_SIZE; offset += BUF_SIZE)` followed by the `if (st.st_size > offset)`
remainder window), with `w` counting completed iterations. -/
def sendLoop (content : List Nat) (size offset w : Nat) : List Ev :=
  if size - offset > BUF_SIZE then
    (winPair w offset BUF_SIZE content ++ [Ev.delayEv])
      ++ sendLoop content size (offset + BUF_SIZE) (w + 1)
  else if size - offset > 0 then
    winPair w offset (size - offset) content
  else
    []
termination_by size - offset
decreasing_by
  have hB : BUF_SIZE = 1024 := rfl
  omega

/-- The root-path rewrite `if (filename == "./") filename = "./index.html"`. -/
def normFile (filename : String) : String :=
  if filename = "./" then "./index.html" else filename

/-- Index of the last occurrence of `c` (C++ `find_last_of`), `none` for
npos. -/
def findLastOf (cs : List Char) (c : Char) : Option Nat :=
  match cs.reverse.findIdx? (· == c) with
  | some k => some (cs.length - 1 - k)
  | none => none

/-- Extension extraction `filename_view.substr(filename_view.find_last_of('.')
+ 1)`; when there is no dot, `find_last_of` yields npos and `npos + 1`
wraps to `0`, so the whole filename is returned. -/
def extensionOf (filename : String) : String :=
  match findLastOf filename.data '.' with
  | some i => String.mk (filename.data.drop (i + 1))
  | none => filename

/-- Content-type lookup of `http_send_file`; the static table
`MimeDicts` (`mime_dicts.hpp`, not among the sources) is abstracted as
the parameter `mime`, with the generic fallback of the code. -/
def contentTypeOf (mime : String → Option String) (filename : String) : String :=
  match mime (extensionOf filename) with
  | some t => t
  | none => "application/octet-stream"

/-- Trace of `http_send_file(service, filename, clientfd, dirfd)`: rewrite
the root path, open+stat the file, send 404 on failure, otherwise send
the 200 header (awaited) and stream the body; the scope guard closes the
file descriptor on every exit. -/
def http_send_file (mime : String → Option String) (fs : String → OpenResult)
    (filename0 : String) : List Ev :=
  match fs (normFile filename0) with
  | .regular content =>
      Ev.openEv (normFile filename0)
        :: Ev.strSendIssue (http_200_hdr (contentTypeOf mime (normFile filename0)) content.length)
        :: Ev.strSendDone (http_200_hdr (contentTypeOf mime (normFile filename0)) content.length)
        :: (sendLoop content content.length 0 0 ++ [Ev.closeInfd])
  | _ =>
      [Ev.openEv (normFile filename0), Ev.strSendIssue http_404_hdr,
       Ev.strSendDone http_404_hdr, Ev.closeInfd]

/-- C++ `std::string_view::find(c, pos)`: index of the first occurrence of
`c` at or after `pos`, `none` for npos. -/
def svFind (cs : List Char) (c : Char) (pos : Nat) : Option Nat :=
  match (cs.drop pos).findIdx? (· == c) with
  | some k => some (pos + k)
  | none => none

/-- C++ `std::string_view::substr(pos, count)`: raises `std::out_of_range`
when `pos > size()`, otherwise yields up to `count` characters from
`pos`. -/
def svSubstr (cs : List Char) (pos count : Nat) : Except SrvError (List Char) :=
  if pos > cs.length then .error .outOfRange
  else .ok ((cs.drop pos).take count)

/-- Path extraction of `serve`: `"."s += buf_view.substr(4,
buf_view.find(' ', 4) - 4)` (size_t arithmetic: a failed `find` yields
npos). -/
def parsePath (req : String) : Except SrvError String :=
  match svSubstr req.data 4
      (match svFind req.data ' ' 4 with
        | some i => i - 4
        | none => NPOS - 4) with
  | .error e => .error e
  | .ok cs => .ok (String.mk ('.' :: cs))

/-- The dispatch test `buf_view.compare(0, 3, "GET") == 0`: the first
`min 3 size` received characters equal the three characters `GET`. -/
def startsWithGET (req : String) : Bool :=
  req.data.take 3 == "GET".data

/-- Trace of `serve(service, clientfd, dirfd)` after the receive: a
request whose first three bytes compare equal to `GET` is parsed and
delegated to `http_send_file`; anything else gets the fixed 400 payload.
A failed receive (modelled from the spec: a negative result from an
asynchronous primitive surfaces as an exception) aborts `serve`. -/
def serve (mime : String → Option String) (fs : String → OpenResult)
    (recv : Except Unit String) : Except SrvError (List Ev) :=
  match recv with
  | .error _ => .error .transport
  | .ok req =>
    if startsWithGET req then
      match parsePath req with
      | .error e => .error e
      | .ok file => .ok (http_send_file mime fs file)
    else
      .ok [Ev.strSendIssue http_400_hdr, Ev.strSendDone http_400_hdr]

/-- Trace of the per-connection handler coroutine spawned by
`accept_connection`: increment the running-connection counter, run
`serve` inside `try`/`catch` (modelled from the spec: every failure of
parser, responder or pipeline is a `std::exception` caught there and
logged), then unconditionally close the client descriptor and decrement
the counter. -/
def handle (mime : String → Option String) (fs : String → OpenResult)
    (recv : Except Unit String) : List Ev :=
  Ev.incrCount ::
    ((match serve mime fs recv with
      | .ok evs => evs
      | .error _ => [Ev.logCrash])
     ++ [Ev.closeClient, Ev.decrCount])

/-- Payload of a completed header/error send. -/
def hdrOf : Ev → Option String
  | .strSendDone s => some s
  | _ => none

/-- Payload of a completed body-window send. -/
def chunkOf : Ev → Option (List Nat)
  | .sendDone _ bs => some bs
  | _ => none

/-- Requested length of an issued body-window read. -/
def readLenOf : Ev → Option Nat
  | .readIssue _ _ len => some len
  | _ => none

/-- Bytes an event delivers to the client (header strings as their
character codes, body windows as file bytes). -/
def bytesOf : Ev → List Nat
  | .strSendDone s => s.data.map Char.toNat
  | .sendDone _ bs => bs
  | _ => []

/-- Completed header/error sends of a trace, in order. -/
def headerSends (t : List Ev) : List String :=
  t.filterMap hdrOf

/-- Completed body-window sends of a trace, in order. -/
def bodyChunks (t : List Ev) : List (List Nat) :=
  t.filterMap chunkOf

/-- Lengths requested by the issued body-window reads of a trace. -/
def readLens (t : List Ev) : List Nat :=
  t.filterMap readLenOf

/-- Bytes the client observes on the connection, in completion order. -/
def respBytes (t : List Ev) : List Nat :=
  (t.map bytesOf).flatten

/-- Client-observed bytes of a `serve` outcome (nothing on a failure). -/
def respOf (r : Except SrvError (List Ev)) : List Nat :=
  match r with
  | .ok evs => respBytes evs
  | .error _ => []

/-- First whitespace-delimited token of a request (used only to state
claims about the request's method token). -/
def firstToken (s : String) : String :=
  String.mk (s.data.takeWhile fun c => c != ' ')

/-- Window-length sequence asserted by the spec for a file of `r`
remaining bytes: full windows of `BUF_SIZE` plus one remainder window. -/
def lenList (r : Nat) : List Nat :=
  List.replicate (r / BUF_SIZE) BUF_SIZE
    ++ if r % BUF_SIZE > 0 then [r % BUF_SIZE] else []

/-- Mime table with no entries, for concrete instances. -/
def noMime : String → Option String := fun _ => none

/-- File system on which every open fails, for concrete instances. -/
def emptyFs : String → OpenResult := fun _ => .openFail

/-- File system holding only the default document, empty. -/
def idxFs : String → OpenResult :=
  fun s => if s = "./index.html" then .regular [] else .openFail

/-- File system holding one 2000-byte regular file `./big`. -/
def bigFs : String → OpenResult :=
  fun s => if s = "./big" then .regular (List.replicate 2000 3) else .openFail

/-- File system holding one 1025-byte regular file `./big2`. -/
def big2Fs : String → OpenResult :=
  fun s => if s = "./big2" then .regular (List.replicate 1025 0) else .openFail

/-- File system holding one 1-byte regular file `./one`. -/
def oneFs : String → OpenResult :=
  fun s => if s = "./one" then .regular [7] else .openFail

/-- Modelled from the spec: body-streaming loop over fallible primitives.
The I/O service (`io_service.hpp`, `when.hpp`, not among the sources)
gives every send/read the result "byte count or negative error" (§6),
the all-complete combinator "surfaces the first failure if any" (§6),
and "a failure on either half of a linked pair fails the whole
transfer" (§4.5).  `fail` is a per-operation outcome oracle and `k`
numbers this request's asynchronous operations: a failing pair still
submits both halves but completes neither, and the loop stops with the
surfaced failure instead of iterating further. -/
def sendLoopE (fail : Nat → Bool) (content : List Nat) (size offset w k : Nat) :
    List Ev × Option SrvError :=
  if size - offset > BUF_SIZE then
    if fail k || fail (k + 1) then
      ([Ev.readIssue w offset BUF_SIZE, Ev.sendIssue w BUF_SIZE], some .io)
    else
      ((winPair w offset BUF_SIZE content ++ [Ev.delayEv])
          ++ (sendLoopE fail content size (offset + BUF_SIZE) (w + 1) (k + 2)).1,
       (sendLoopE fail content size (offset + BUF_SIZE) (w + 1) (k + 2)).2)
  else if size - offset > 0 then
    if fail k || fail (k + 1) then
      ([Ev.readIssue w offset (size - offset), Ev.sendIssue w (size - offset)],
       some .io)
    else (winPair w offset (size - offset) content, none)
  else ([], none)
termination_by size - offset
decreasing_by
  all_goals (have hB : BUF_SIZE = 1024 := rfl; omega)

/-- Modelled from the spec: `http_send_file` over fallible primitives.
A failed awaited header or 404 send, or a failed window pair, raises at
the `co_await` (§7(c)); the scope guard still closes the file
descriptor on that exit path.  Operation 0 is the header or error send,
operations 1, 2, ... the pipeline's read/send pairs. -/
def http_send_fileE (mime : String → Option String) (fs : String → OpenResult)
    (fail : Nat → Bool) (filename0 : String) : List Ev × Option SrvError :=
  match fs (normFile filename0) with
  | .regular content =>
      if fail 0 then
        ([Ev.openEv (normFile filename0),
          Ev.strSendIssue (http_200_hdr (contentTypeOf mime (normFile filename0)) content.length),
          Ev.closeInfd], some .io)
      else
        (Ev.openEv (normFile filename0)
          :: Ev.strSendIssue (http_200_hdr (contentTypeOf mime (normFile filename0)) content.length)
          :: Ev.strSendDone (http_200_hdr (contentTypeOf mime (normFile filename0)) content.length)
          :: ((sendLoopE fail content content.length 0 0 1).1 ++ [Ev.closeInfd]),
         (sendLoopE fail content content.length 0 0 1).2)
  | _ =>
      if fail 0 then
        ([Ev.openEv (normFile filename0), Ev.strSendIssue http_404_hdr,
          Ev.closeInfd], some .io)
      else
        ([Ev.openEv (normFile filename0), Ev.strSendIssue http_404_hdr,
          Ev.strSendDone http_404_hdr, Ev.closeInfd], none)

/-- Modelled from the spec: `serve` over fallible primitives, pairing the
trace produced so far with the failure that escapes to the handler, if
any — a failed receive, the parser's out-of-range, or any I/O failure
of the responder or pipeline (§7: all are caught at the handler
boundary). -/
def serveE (mime : String → Option String) (fs : String → OpenResult)
    (fail : Nat → Bool) (recv : Except Unit String) : List Ev × Option SrvError :=
  match recv with
  | .error _ => ([], some .transport)
  | .ok req =>
    if startsWithGET req then
      match parsePath req with
      | .error e => ([], some e)
      | .ok file => http_send_fileE mime fs fail file
    else
      if fail 0 then ([Ev.strSendIssue http_400_hdr], some .io)
      else ([Ev.strSendIssue http_400_hdr, Ev.strSendDone http_400_hdr], none)

/-- Trace of the connection handler over the fallible model: counter
increment, `serve` under `try`, any surfaced failure converted to a
logged diagnostic by the `catch`, then the unconditional close and
decrement of `accept_connection`'s lambda. -/
def handleE (mime : String → Option String) (fs : String → OpenResult)
    (fail : Nat → Bool) (recv : Except Unit String) : List Ev :=
  Ev.incrCount ::
    (((serveE mime fs fail recv).1
        ++ (match (serveE mime fs fail recv).2 with
            | some _ => [Ev.logCrash]
            | none => []))
      ++ [Ev.closeClient, Ev.decrCount])

/-- Oracle failing exactly the request's second asynchronous operation
(the first pipeline read/send pair), for concrete instances. -/
def oneFail : Nat → Bool := fun k => k == 1

/-! ## Basic lemmas about the pipeline trace -/

/-- One-step unfolding of the streaming loop. -/
theorem sendLoop_eq (content : List Nat) (size offset w : Nat) :
    sendLoop content size offset w =
      if size - offset > BUF_SIZE then
        (winPair w offset BUF_SIZE content ++ [Ev.delayEv])
          ++ sendLoop content size (offset + BUF_SIZE) (w + 1)
      else if size - offset > 0 then
        winPair w offset (size - offset) content
      else [] := by
  rw [sendLoop]

/-- Position-wise split of a lookup in an appended list. -/
theorem getElem?_split {α : Type} {l₁ l₂ : List α} {i : Nat} {a : α}
    (h : (l₁ ++ l₂)[i]? = some a) :
    (i < l₁.length ∧ l₁[i]? = some a) ∨
      (l₁.length ≤ i ∧ l₂[i - l₁.length]? = some a) := by
  rw [List.getElem?_append] at h
  by_cases hi : i < l₁.length
  · exact Or.inl ⟨hi, by rwa [if_pos hi] at h⟩
  · exact Or.inr ⟨Nat.le_of_not_lt hi, by rwa [if_neg hi] at h⟩

/-- A successful position lookup is a membership. -/
theorem mem_of_getElem' {α : Type} {l : List α} {i : Nat} {a : α}
    (h : l[i]? = some a) : a ∈ l := by
  obtain ⟨hlt, he⟩ := List.getElem?_eq_some.mp h
  exact he ▸ List.getElem_mem hlt

/-- Every event of a window pair carries that pair's window index. -/
theorem winOf_winPair {w offset len : Nat} {content : List Nat} {e : Ev}
    (he : e ∈ winPair w offset len content) : winOf e = some w := by
  simp only [winPair, List.mem_cons, List.mem_singleton, List.not_mem_nil,
    or_false] at he
  rcases he with h | h | h | h <;> subst h <;> rfl

/-- Window indices in the loop's trace are at least the starting index. -/
theorem sendLoop_winOf_ge (content : List Nat) (size : Nat) :
    ∀ d offset w, size - offset = d →
      ∀ e ∈ sendLoop content size offset w, ∀ k, winOf e = some k → w ≤ k := by
  intro d
  induction d using Nat.strong_induction_on with
  | _ d ih =>
    intro offset w hd e he k hk
    have hB : BUF_SIZE = 1024 := rfl
    rw [sendLoop_eq] at he
    by_cases h1 : size - offset > BUF_SIZE
    · rw [if_pos h1] at he
      rcases List.mem_append.mp he with he | he
      · rcases List.mem_append.mp he with he | he
        · have hw := winOf_winPair he
          rw [hw] at hk
          exact (Option.some_inj.mp hk) ▸ Nat.le_refl w
        · simp only [List.mem_singleton] at he
          subst he
          simp [winOf] at hk
      · have := ih (size - (offset + BUF_SIZE)) (by omega)
          (offset + BUF_SIZE) (w + 1) rfl e he k hk
        omega
    · rw [if_neg h1] at he
      by_cases h2 : size - offset > 0
      · rw [if_pos h2] at he
        have hw := winOf_winPair he
        rw [hw] at hk
        exact (Option.some_inj.mp hk) ▸ Nat.le_refl w
      · rw [if_neg h2] at he
        simp at he

/-- Every event of the loop's trace is a pipeline event. -/
theorem sendLoop_isPipe (content : List Nat) (size : Nat) :
    ∀ d offset w, size - offset = d →
      ∀ e ∈ sendLoop content size offset w, isPipeEv e = true := by
  intro d
  induction d using Nat.strong_induction_on with
  | _ d ih =>
    intro offset w hd e he
    have hB : BUF_SIZE = 1024 := rfl
    rw [sendLoop_eq] at he
    by_cases h1 : size - offset > BUF_SIZE
    · rw [if_pos h1] at he
      rcases List.mem_append.mp he with he | he
      · rcases List.mem_append.mp he with he | he
        · simp only [winPair, List.mem_cons, List.mem_singleton,
            List.not_mem_nil, or_false] at he
          rcases he with h | h | h | h <;> subst h <;> rfl
        · simp only [List.mem_singleton] at he
          subst he; rfl
      · exact ih (size - (offset + BUF_SIZE)) (by omega)
          (offset + BUF_SIZE) (w + 1) rfl e he
    · rw [if_neg h1] at he
      by_cases h2 : size - offset > 0
      · rw [if_pos h2] at he
        simp only [winPair, List.mem_cons, List.mem_singleton,
          List.not_mem_nil, or_false] at he
        rcases he with h | h | h | h <;> subst h <;> rfl
      · rw [if_neg h2] at he
        simp at he

/-- Events of an earlier window precede events of a later window in the
loop's trace: each iteration's all-complete wait finishes both members of
a pair before the next iteration submits anything. -/
theorem sendLoop_order (content : List Nat) (size : Nat) :
    ∀ d offset w, size - offset = d →
      ∀ (a b : Ev) (m n i j : Nat), winOf a = some m → winOf b = some n → m < n →
        (sendLoop content size offset w)[i]? = some a →
        (sendLoop content size offset w)[j]? = some b → i < j := by
  intro d
  induction d using Nat.strong_induction_on with
  | _ d ih =>
    intro offset w hd a b m n i j ha hb hmn hia hjb
    have hB : BUF_SIZE = 1024 := rfl
    rw [sendLoop_eq] at hia hjb
    by_cases h1 : size - offset > BUF_SIZE
    · rw [if_pos h1] at hia hjb
      have hPlen : (winPair w offset BUF_SIZE content ++ [Ev.delayEv]).length = 5 := by
        simp [winPair]
      have hma : w ≤ m := by
        rcases getElem?_split hia with ⟨hi, hPi⟩ | ⟨hi, hRi⟩
        · rcases getElem?_split hPi with ⟨_, hWi⟩ | ⟨_, hDi⟩
          · have hw := winOf_winPair (mem_of_getElem' hWi)
            rw [hw] at ha
            have := Option.some_inj.mp ha
            omega
          · have hd' := mem_of_getElem' hDi
            simp only [List.mem_singleton] at hd'
            subst hd'
            simp [winOf] at ha
        · have := sendLoop_winOf_ge content size (size - (offset + BUF_SIZE))
            (offset + BUF_SIZE) (w + 1) rfl a (mem_of_getElem' hRi) m ha
          omega
      have hbnotP : b ∉ winPair w offset BUF_SIZE content ++ [Ev.delayEv] := by
        intro hmem
        rcases List.mem_append.mp hmem with h | h
        · have hw := winOf_winPair h
          rw [hw] at hb
          have := Option.some_inj.mp hb
          omega
        · simp only [List.mem_singleton] at h
          subst h
          simp [winOf] at hb
      rcases getElem?_split hjb with ⟨hj, hPj⟩ | ⟨hj, hRj⟩
      · exact absurd (mem_of_getElem' hPj) hbnotP
      · rcases Nat.eq_or_lt_of_le hma with heq | hlt
        · rcases getElem?_split hia with ⟨hi, _⟩ | ⟨hi, hRi⟩
          · omega
          · have := sendLoop_winOf_ge content size (size - (offset + BUF_SIZE))
              (offset + BUF_SIZE) (w + 1) rfl a (mem_of_getElem' hRi) m ha
            omega
        · rcases getElem?_split hia with ⟨hi, hPi⟩ | ⟨hi, hRi⟩
          · rcases getElem?_split hPi with ⟨_, hWi⟩ | ⟨_, hDi⟩
            · have hw := winOf_winPair (mem_of_getElem' hWi)
              rw [hw] at ha
              have := Option.some_inj.mp ha
              omega
            · have hd' := mem_of_getElem' hDi
              simp only [List.mem_singleton] at hd'
              subst hd'
              simp [winOf] at ha
          · have := ih (size - (offset + BUF_SIZE)) (by omega)
              (offset + BUF_SIZE) (w + 1) rfl a b m n
              (i - (winPair w offset BUF_SIZE content ++ [Ev.delayEv]).length)
              (j - (winPair w offset BUF_SIZE content ++ [Ev.delayEv]).length)
              ha hb hmn hRi hRj
            omega
    · rw [if_neg h1] at hia hjb
      by_cases h2 : size - offset > 0
      · rw [if_pos h2] at hia hjb
        have hwa := winOf_winPair (mem_of_getElem' hia)
        have hwb := winOf_winPair (mem_of_getElem' hjb)
        rw [hwa] at ha
        rw [hwb] at hb
        have h3 := Option.some_inj.mp ha
        have h4 := Option.some_inj.mp hb
        omega
      · rw [if_neg h2] at hia
        simp at hia

/-! ## Window structure of the pipeline trace -/

theorem lenList_zero : lenList 0 = [] := rfl

theorem lenList_step {r : Nat} (h : BUF_SIZE < r) :
    lenList r = BUF_SIZE :: lenList (r - BUF_SIZE) := by
  have hB : BUF_SIZE = 1024 := rfl
  rw [hB] at h
  unfold lenList
  rw [hB]
  have e1 : r / 1024 = (r - 1024) / 1024 + 1 := by omega
  have e2 : r % 1024 = (r - 1024) % 1024 := by omega
  rw [e1, e2, List.replicate_succ, List.cons_append]

theorem lenList_last {r : Nat} (h1 : ¬ BUF_SIZE < r) (h2 : 0 < r) :
    lenList r = [r] := by
  have hB : BUF_SIZE = 1024 := rfl
  rw [hB] at h1
  unfold lenList
  rw [hB]
  rcases Nat.lt_or_ge r 1024 with hr | hr
  · have e1 : r / 1024 = 0 := by omega
    have e2 : r % 1024 = r := by omega
    rw [e1, e2]
    simp [h2]
  · have hr2 : r = 1024 := by omega
    subst hr2
    rfl

theorem bodyChunks_winPair (w o len : Nat) (c : List Nat) :
    bodyChunks (winPair w o len c) = [winBytes c o len] := rfl

theorem readLens_winPair (w o len : Nat) (c : List Nat) :
    readLens (winPair w o len c) = [len] := rfl

/-- The loop's completed body sends carry exactly the spec's window
split of the remaining bytes, their concatenation is the remaining file
content, and the issued reads request exactly the same lengths. -/
theorem sendLoop_chunks (content : List Nat) :
    ∀ d offset w, content.length - offset = d →
      (bodyChunks (sendLoop content content.length offset w)).map List.length
          = lenList (content.length - offset)
      ∧ (bodyChunks (sendLoop content content.length offset w)).flatten
          = content.drop offset
      ∧ readLens (sendLoop content content.length offset w)
          = lenList (content.length - offset) := by
  intro d
  induction d using Nat.strong_induction_on with
  | _ d ih =>
    intro offset w hd
    have hB : BUF_SIZE = 1024 := rfl
    rw [sendLoop_eq]
    by_cases h1 : content.length - offset > BUF_SIZE
    · rw [if_pos h1]
      obtain ⟨ih1, ih2, ih3⟩ := ih (content.length - (offset + BUF_SIZE))
        (by omega) (offset + BUF_SIZE) (w + 1) rfl
      have hsub : content.length - (offset + BUF_SIZE)
          = content.length - offset - BUF_SIZE := by omega
      rw [hsub] at ih1 ih3
      have hwb : (winBytes content offset BUF_SIZE).length = BUF_SIZE := by
        simp only [winBytes, List.length_take, List.length_drop]
        omega
      have hchunks : bodyChunks ((winPair w offset BUF_SIZE content ++ [Ev.delayEv])
            ++ sendLoop content content.length (offset + BUF_SIZE) (w + 1))
          = winBytes content offset BUF_SIZE
              :: bodyChunks (sendLoop content content.length (offset + BUF_SIZE) (w + 1)) := by
        rw [bodyChunks, List.filterMap_append, ← bodyChunks, ← bodyChunks]
        rfl
      have hreads : readLens ((winPair w offset BUF_SIZE content ++ [Ev.delayEv])
            ++ sendLoop content content.length (offset + BUF_SIZE) (w + 1))
          = BUF_SIZE
              :: readLens (sendLoop content content.length (offset + BUF_SIZE) (w + 1)) := by
        rw [readLens, List.filterMap_append, ← readLens, ← readLens]
        rfl
      refine ⟨?_, ?_, ?_⟩
      · rw [hchunks, List.map_cons, hwb, ih1, ← lenList_step h1]
      · rw [hchunks, List.flatten_cons, ih2]
        have hdd : content.drop (offset + BUF_SIZE)
            = (content.drop offset).drop BUF_SIZE := by
          rw [List.drop_drop]
        rw [hdd, winBytes, List.take_append_drop]
      · rw [hreads, ih3, ← lenList_step h1]
    · rw [if_neg h1]
      by_cases h2 : content.length - offset > 0
      · rw [if_pos h2]
        have hwb : (winBytes content offset (content.length - offset)).length
            = content.length - offset := by
          simp only [winBytes, List.length_take, List.length_drop]
          omega
        refine ⟨?_, ?_, ?_⟩
        · rw [bodyChunks_winPair, List.map_cons, hwb, lenList_last h1 h2]
          rfl
        · rw [bodyChunks_winPair, List.flatten_cons, List.flatten_nil,
            List.append_nil, winBytes]
          exact List.take_of_length_le (by simp)
        · rw [readLens_winPair, lenList_last h1 h2]
      · rw [if_neg h2]
        have h0 : content.length - offset = 0 := by omega
        rw [h0, lenList_zero]
        refine ⟨rfl, ?_, rfl⟩
        rw [List.drop_eq_nil_of_le (by omega)]
        rfl

/-- No header/error send happens inside the streaming loop. -/
theorem headerSends_sendLoop (content : List Nat) (size offset w : Nat) :
    headerSends (sendLoop content size offset w) = [] := by
  rw [headerSends, List.filterMap_eq_nil_iff]
  intro e he
  have hp := sendLoop_isPipe content size (size - offset) offset w rfl e he
  cases e <;> first | rfl | simp [isPipeEv] at hp

/-- No handler-level event happens inside the streaming loop. -/
theorem sendLoop_no_handler (content : List Nat) (size offset w : Nat) {e : Ev}
    (he : e ∈ sendLoop content size offset w) : isHandlerEv e = false := by
  have hp := sendLoop_isPipe content size (size - offset) offset w rfl e he
  cases e <;> first | rfl | simp [isPipeEv] at hp

/-! ## Branch structure of the responder -/

/-- Trace of `http_send_file` on an existing regular file. -/
theorem http_send_file_reg (mime : String → Option String)
    (fs : String → OpenResult) (f : String) (content : List Nat)
    (h : fs (normFile f) = .regular content) :
    http_send_file mime fs f
      = Ev.openEv (normFile f)
        :: Ev.strSendIssue (http_200_hdr (contentTypeOf mime (normFile f)) content.length)
        :: Ev.strSendDone (http_200_hdr (contentTypeOf mime (normFile f)) content.length)
        :: (sendLoop content content.length 0 0 ++ [Ev.closeInfd]) := by
  unfold http_send_file
  rw [h]

/-- Trace of `http_send_file` when open/stat fails or the target is not a
regular file: exactly the awaited 404 payload, then the scope-guard
close. -/
theorem http_send_file_err (mime : String → Option String)
    (fs : String → OpenResult) (f : String)
    (h : ∀ content, fs (normFile f) ≠ .regular content) :
    http_send_file mime fs f
      = [Ev.openEv (normFile f), Ev.strSendIssue http_404_hdr,
         Ev.strSendDone http_404_hdr, Ev.closeInfd] := by
  unfold http_send_file
  cases hfs : fs (normFile f) with
  | regular c => exact absurd hfs (h c)
  | openFail => rfl
  | statFail => rfl
  | notRegular => rfl

/-- No handler-level event appears in a responder trace. -/
theorem http_send_file_no_handler (mime : String → Option String)
    (fs : String → OpenResult) (f : String) {e : Ev}
    (he : e ∈ http_send_file mime fs f) : isHandlerEv e = false := by
  unfold http_send_file at he
  cases hfs : fs (normFile f) <;> rw [hfs] at he <;>
    simp only [List.mem_cons, List.mem_append, List.mem_singleton,
      List.not_mem_nil, or_false] at he
  case regular c =>
    rcases he with rfl | rfl | rfl | h | rfl
    · rfl
    · rfl
    · rfl
    · exact sendLoop_no_handler c c.length 0 0 h
    · rfl
  all_goals rcases he with rfl | rfl | rfl | rfl <;> rfl

/-- Definitional reduction of `serve` on a successful receive. -/
theorem serve_ok_eq (mime : String → Option String) (fs : String → OpenResult)
    (req : String) :
    serve mime fs (.ok req)
      = if startsWithGET req = true then
          match parsePath req with
          | .error e => .error e
          | .ok file => .ok (http_send_file mime fs file)
        else .ok [Ev.strSendIssue http_400_hdr, Ev.strSendDone http_400_hdr] := rfl

/-- No handler-level event appears in a successful `serve` trace. -/
theorem serve_ok_no_handler (mime : String → Option String)
    (fs : String → OpenResult) (recv : Except Unit String) (evs : List Ev)
    (h : serve mime fs recv = .ok evs) : ∀ e ∈ evs, isHandlerEv e = false := by
  cases recv with
  | error u => simp [serve] at h
  | ok req =>
    rw [serve_ok_eq] at h
    by_cases hg : startsWithGET req
    · rw [if_pos hg] at h
      cases hp : parsePath req with
      | error e => rw [hp] at h; cases h
      | ok f =>
        rw [hp] at h
        have hevs : http_send_file mime fs f = evs := by
          injection h
        intro e he
        rw [← hevs] at he
        exact http_send_file_no_handler mime fs f he
    · rw [if_neg hg] at h
      have hevs : [Ev.strSendIssue http_400_hdr, Ev.strSendDone http_400_hdr] = evs := by
        injection h
      intro e he
      rw [← hevs] at he
      simp only [List.mem_cons, List.mem_singleton, List.not_mem_nil, or_false] at he
      rcases he with h' | h' <;> subst h' <;> rfl

/-- Header sends of the responder on a regular file: exactly the 200
header carrying the derived content type and the statted length. -/
theorem headerSends_reg (mime : String → Option String) (fs : String → OpenResult)
    (f : String) (content : List Nat) (h : fs (normFile f) = .regular content) :
    headerSends (http_send_file mime fs f)
      = [http_200_hdr (contentTypeOf mime (normFile f)) content.length] := by
  rw [http_send_file_reg mime fs f content h]
  have h2 : headerSends (sendLoop content content.length 0 0 ++ [Ev.closeInfd]) = [] := by
    rw [headerSends, List.filterMap_append]
    rw [show List.filterMap hdrOf (sendLoop content content.length 0 0) = []
      from headerSends_sendLoop content content.length 0 0]
    rfl
  calc headerSends (Ev.openEv (normFile f)
        :: Ev.strSendIssue (http_200_hdr (contentTypeOf mime (normFile f)) content.length)
        :: Ev.strSendDone (http_200_hdr (contentTypeOf mime (normFile f)) content.length)
        :: (sendLoop content content.length 0 0 ++ [Ev.closeInfd]))
      = http_200_hdr (contentTypeOf mime (normFile f)) content.length
          :: headerSends (sendLoop content content.length 0 0 ++ [Ev.closeInfd]) := rfl
    _ = [http_200_hdr (contentTypeOf mime (normFile f)) content.length] := by rw [h2]

/-- Header sends of the responder on a failed open: exactly the 404
payload. -/
theorem headerSends_err (mime : String → Option String) (fs : String → OpenResult)
    (f : String) (h : ∀ content, fs (normFile f) ≠ .regular content) :
    headerSends (http_send_file mime fs f) = [http_404_hdr] := by
  rw [http_send_file_err mime fs f h]
  rfl

/-- Body chunks of the responder on a regular file come from the loop. -/
theorem bodyChunks_reg (mime : String → Option String) (fs : String → OpenResult)
    (f : String) (content : List Nat) (h : fs (normFile f) = .regular content) :
    bodyChunks (http_send_file mime fs f)
      = bodyChunks (sendLoop content content.length 0 0) := by
  rw [http_send_file_reg mime fs f content h]
  calc bodyChunks (Ev.openEv (normFile f)
        :: Ev.strSendIssue (http_200_hdr (contentTypeOf mime (normFile f)) content.length)
        :: Ev.strSendDone (http_200_hdr (contentTypeOf mime (normFile f)) content.length)
        :: (sendLoop content content.length 0 0 ++ [Ev.closeInfd]))
      = bodyChunks (sendLoop content content.length 0 0 ++ [Ev.closeInfd]) := rfl
    _ = bodyChunks (sendLoop content content.length 0 0) ++ bodyChunks [Ev.closeInfd] := by
        rw [bodyChunks, List.filterMap_append]
        rfl
    _ = bodyChunks (sendLoop content content.length 0 0) := by
        rw [show bodyChunks [Ev.closeInfd] = [] from rfl, List.append_nil]

/-- Issued read lengths of the responder on a regular file come from the
loop. -/
theorem readLens_reg (mime : String → Option String) (fs : String → OpenResult)
    (f : String) (content : List Nat) (h : fs (normFile f) = .regular content) :
    readLens (http_send_file mime fs f)
      = readLens (sendLoop content content.length 0 0) := by
  rw [http_send_file_reg mime fs f content h]
  calc readLens (Ev.openEv (normFile f)
        :: Ev.strSendIssue (http_200_hdr (contentTypeOf mime (normFile f)) content.length)
        :: Ev.strSendDone (http_200_hdr (contentTypeOf mime (normFile f)) content.length)
        :: (sendLoop content content.length 0 0 ++ [Ev.closeInfd]))
      = readLens (sendLoop content content.length 0 0 ++ [Ev.closeInfd]) := rfl
    _ = readLens (sendLoop content content.length 0 0) ++ readLens [Ev.closeInfd] := by
        rw [readLens, List.filterMap_append]
        rfl
    _ = readLens (sendLoop content content.length 0 0) := by
        rw [show readLens [Ev.closeInfd] = [] from rfl, List.append_nil]

/-! ## Claim theorems -/

/-- C4, counterexample: the received request `GETX /x HTTP/1.1` has first
token `GETX`, not `GET`, yet the server's response is not the 400
payload: the prefix test `compare(0, 3, "GET") == 0` accepts it, a file
open (for `.`) is attempted, and the 404 payload is sent instead. -/
theorem c4_counterexample :
    firstToken "GETX /x HTTP/1.1" ≠ "GET"
    ∧ serve noMime emptyFs (.ok "GETX /x HTTP/1.1")
        = .ok [Ev.openEv ".", Ev.strSendIssue http_404_hdr,
               Ev.strSendDone http_404_hdr, Ev.closeInfd] := by
  refine ⟨by decide, by decide⟩

/-- C4 (amended): for every received request whose first three bytes do
not compare equal to `GET`, the entire response is exactly the fixed 400
payload with zero body, and no file open or body transfer is attempted
(the serve trace is exactly the issued and completed 400 send). -/
theorem c4_bad_request (mime : String → Option String) (fs : String → OpenResult)
    (req : String) (h : startsWithGET req = false) :
    serve mime fs (.ok req)
      = .ok [Ev.strSendIssue http_400_hdr, Ev.strSendDone http_400_hdr] := by
  rw [serve_ok_eq, if_neg (by simp [h])]

/-- C4 witness at the concrete request `POST / HTTP/1.1`. -/
theorem c4_bad_request_witness :
    startsWithGET "POST / HTTP/1.1" = false
    ∧ serve noMime emptyFs (.ok "POST / HTTP/1.1")
        = .ok [Ev.strSendIssue http_400_hdr, Ev.strSendDone http_400_hdr] :=
  ⟨by decide, c4_bad_request noMime emptyFs "POST / HTTP/1.1" (by decide)⟩

/-- C5 (confirmed): for every GET request whose extracted path does not
resolve to an existing regular file (open failure, stat failure, or a
non-regular target), the entire response is exactly the fixed 404 payload
with zero body, no 200 header or body bytes are sent, and the responder
returns normally (the serve outcome is a trace, not a failure). -/
theorem c5_not_found (mime : String → Option String) (fs : String → OpenResult)
    (req f : String)
    (hg : startsWithGET req = true)
    (hp : parsePath req = .ok f)
    (hnr : ∀ content, fs (normFile f) ≠ OpenResult.regular content) :
    serve mime fs (.ok req)
      = .ok [Ev.openEv (normFile f), Ev.strSendIssue http_404_hdr,
             Ev.strSendDone http_404_hdr, Ev.closeInfd] := by
  rw [serve_ok_eq, if_pos hg, hp]
  exact congrArg Except.ok (http_send_file_err mime fs f hnr)

/-- C5 witness at the concrete request `GET /nope HTTP/1.1` against the
file system on which every open fails. -/
theorem c5_not_found_witness :
    parsePath "GET /nope HTTP/1.1" = .ok "./nope"
    ∧ serve noMime emptyFs (.ok "GET /nope HTTP/1.1")
        = .ok [Ev.openEv "./nope", Ev.strSendIssue http_404_hdr,
               Ev.strSendDone http_404_hdr, Ev.closeInfd] :=
  ⟨by decide, c5_not_found noMime emptyFs "GET /nope HTTP/1.1" "./nope"
    (by decide) (by decide) (fun content h => by simp [emptyFs] at h)⟩

/-- C6, counterexample: a receive of zero bytes does not take the
not-found path; the empty view fails the `GET` prefix comparison
(`"".compare("GET") < 0`), so the unsupported-request branch answers
with the 400 payload and no open is attempted. -/
theorem c6_counterexample :
    serve noMime emptyFs (.ok "")
      = .ok [Ev.strSendIssue http_400_hdr, Ev.strSendDone http_400_hdr] := by
  decide

/-- C6 (amended): an empty read yields an empty view which fails the
`GET` prefix comparison, so for every mime table and file-system state
the server takes the unsupported-request branch and sends exactly the
400 payload; the empty read is still not a distinguished error case (no
failure is raised), but it never reaches the responder. -/
theorem c6_empty_read (mime : String → Option String) (fs : String → OpenResult) :
    serve mime fs (.ok "")
      = .ok [Ev.strSendIssue http_400_hdr, Ev.strSendDone http_400_hdr] := by
  rw [serve_ok_eq, if_neg (by decide)]

/-- C9 (confirmed): when the default document exists as a regular file, a
GET for the root path is served identically to an explicit GET for
`/index.html`: the parser yields `./`, the responder rewrites it to
`./index.html` before the open, and every later step is the same
function of that filename, so the traces and the client-observed bytes
coincide. -/
theorem c9_root_default (mime : String → Option String) (fs : String → OpenResult)
    (h : ∃ content, fs "./index.html" = OpenResult.regular content) :
    serve mime fs (.ok "GET / HTTP/1.1\r\n\r\n")
        = serve mime fs (.ok "GET /index.html HTTP/1.1\r\n\r\n")
    ∧ respOf (serve mime fs (.ok "GET / HTTP/1.1\r\n\r\n"))
        = respOf (serve mime fs (.ok "GET /index.html HTTP/1.1\r\n\r\n")) := by
  have hp1 : parsePath "GET / HTTP/1.1\r\n\r\n" = .ok "./" := by decide
  have hp2 : parsePath "GET /index.html HTTP/1.1\r\n\r\n" = .ok "./index.html" := by
    decide
  have hnf : normFile "./" = normFile "./index.html" := by decide
  have hn : http_send_file mime fs "./" = http_send_file mime fs "./index.html" := by
    unfold http_send_file
    rw [hnf]
  have h1 : serve mime fs (.ok "GET / HTTP/1.1\r\n\r\n")
      = .ok (http_send_file mime fs "./") := by
    rw [serve_ok_eq, if_pos (by decide), hp1]
  have h2 : serve mime fs (.ok "GET /index.html HTTP/1.1\r\n\r\n")
      = .ok (http_send_file mime fs "./index.html") := by
    rw [serve_ok_eq, if_pos (by decide), hp2]
  constructor
  · rw [h1, h2, hn]
  · rw [h1, h2, hn]

/-- C9 witness on the file system holding only the default document. -/
theorem c9_root_default_witness :
    idxFs "./index.html" = OpenResult.regular []
    ∧ serve noMime idxFs (.ok "GET / HTTP/1.1\r\n\r\n")
        = serve noMime idxFs (.ok "GET /index.html HTTP/1.1\r\n\r\n") :=
  ⟨by decide, (c9_root_default noMime idxFs ⟨[], by decide⟩).1⟩

/-- C10, counterexample: the three-byte request `GET` takes the GET
branch (prefix comparison succeeds) and contains no space at or after
position 4, but the parser does not yield a path: `substr(4, ...)` with
`pos > size()` raises `std::out_of_range`, so `serve` fails instead of
extracting the remainder. -/
theorem c10_counterexample :
    startsWithGET "GET" = true
    ∧ svFind ("GET" : String).data ' ' 4 = none
    ∧ parsePath "GET" = .error SrvError.outOfRange
    ∧ serve noMime emptyFs (.ok "GET") = .error SrvError.outOfRange := by
  refine ⟨by decide, by decide, by decide, by decide⟩

/-- C10 (amended): for every received request taken by the GET branch
whose length is at least 4 (so position 4 is inside or at the end of the
read, as for every request with a method token and a space) and which
contains no space at or after position 4, the extracted target path is
the entire remainder of the received bytes from position 4, prefixed
with `.`, and `serve` delegates that path to the responder without
failing; only the exact three-byte request `GET` (length 3) escapes this
and raises out-of-range. -/
theorem c10_no_second_space (mime : String → Option String)
    (fs : String → OpenResult) (req : String)
    (hg : startsWithGET req = true)
    (h4 : 4 ≤ req.data.length)
    (hle : req.data.length ≤ BUF_SIZE)
    (hsp : svFind req.data ' ' 4 = none) :
    parsePath req = .ok (String.mk ('.' :: req.data.drop 4))
    ∧ serve mime fs (.ok req)
        = .ok (http_send_file mime fs (String.mk ('.' :: req.data.drop 4))) := by
  have hB : BUF_SIZE = 1024 := rfl
  have hN : NPOS = 18446744073709551615 := rfl
  have hs2 : svSubstr req.data 4 (NPOS - 4) = .ok (req.data.drop 4) := by
    unfold svSubstr
    rw [if_neg (by omega)]
    rw [List.take_of_length_le (by rw [List.length_drop]; omega)]
  have hp : parsePath req = .ok (String.mk ('.' :: req.data.drop 4)) := by
    unfold parsePath
    rw [hsp]
    show (match svSubstr req.data 4 (NPOS - 4) with
          | Except.error e => Except.error e
          | Except.ok cs => Except.ok (String.mk ('.' :: cs))) = _
    rw [hs2]
  refine ⟨hp, ?_⟩
  rw [serve_ok_eq, if_pos hg, hp]

/-- C10 witness at the concrete request `GET /abc` (no version token). -/
theorem c10_no_second_space_witness :
    startsWithGET "GET /abc" = true
    ∧ svFind ("GET /abc" : String).data ' ' 4 = none
    ∧ parsePath "GET /abc" = .ok (String.mk ('.' :: ("GET /abc" : String).data.drop 4))
    ∧ serve noMime emptyFs (.ok "GET /abc")
        = .ok (http_send_file noMime emptyFs
            (String.mk ('.' :: ("GET /abc" : String).data.drop 4))) :=
  ⟨by decide, by decide,
    (c10_no_second_space noMime emptyFs "GET /abc" (by decide) (by decide)
      (by decide) (by decide)).1,
    (c10_no_second_space noMime emptyFs "GET /abc" (by decide) (by decide)
      (by decide) (by decide)).2⟩

/-- C1 (confirmed): for every existing regular file of size S, the 200
header carries Content-Length S (the size observed at stat time), the
completed body sends split into exactly ⌊S / BUF_SIZE⌋ full windows of
BUF_SIZE bytes plus one final window of S mod BUF_SIZE bytes when that
remainder is positive and no empty trailing window otherwise (also when
S = 0), their concatenation is exactly the file's S bytes, and every
window's issued read requests the same length its send transmits. -/
theorem c1_window_structure (mime : String → Option String)
    (fs : String → OpenResult) (filename : String) (content : List Nat)
    (h : fs (normFile filename) = OpenResult.regular content) :
    headerSends (http_send_file mime fs filename)
        = [http_200_hdr (contentTypeOf mime (normFile filename)) content.length]
    ∧ (bodyChunks (http_send_file mime fs filename)).map List.length
        = List.replicate (content.length / BUF_SIZE) BUF_SIZE
            ++ (if content.length % BUF_SIZE > 0 then [content.length % BUF_SIZE] else [])
    ∧ (bodyChunks (http_send_file mime fs filename)).flatten = content
    ∧ readLens (http_send_file mime fs filename)
        = (bodyChunks (http_send_file mime fs filename)).map List.length := by
  obtain ⟨hc1, hc2, hc3⟩ := sendLoop_chunks content (content.length - 0) 0 0 rfl
  rw [Nat.sub_zero] at hc1 hc3
  rw [List.drop_zero] at hc2
  refine ⟨headerSends_reg mime fs filename content h, ?_, ?_, ?_⟩
  · rw [bodyChunks_reg mime fs filename content h, hc1]
    rfl
  · rw [bodyChunks_reg mime fs filename content h, hc2]
  · rw [readLens_reg mime fs filename content h,
      bodyChunks_reg mime fs filename content h, hc3, hc1]

/-- C1 witness on a 2000-byte file: one full 1024-byte window plus a
final 976-byte window. -/
theorem c1_window_structure_witness :
    bigFs (normFile "./big") = OpenResult.regular (List.replicate 2000 3)
    ∧ (headerSends (http_send_file noMime bigFs "./big")
          = [http_200_hdr (contentTypeOf noMime (normFile "./big"))
              (List.replicate (2000 : Nat) (3 : Nat)).length]
      ∧ (bodyChunks (http_send_file noMime bigFs "./big")).map List.length
          = List.replicate ((List.replicate (2000 : Nat) (3 : Nat)).length / BUF_SIZE) BUF_SIZE
              ++ (if (List.replicate (2000 : Nat) (3 : Nat)).length % BUF_SIZE > 0
                  then [(List.replicate (2000 : Nat) (3 : Nat)).length % BUF_SIZE] else [])
      ∧ (bodyChunks (http_send_file noMime bigFs "./big")).flatten = List.replicate 2000 3
      ∧ readLens (http_send_file noMime bigFs "./big")
          = (bodyChunks (http_send_file noMime bigFs "./big")).map List.length) :=
  ⟨rfl, c1_window_structure noMime bigFs "./big" (List.replicate 2000 3) rfl⟩

/-- C8 (confirmed): for a 200 response the header send is completed (at
trace position 2, right after its submission) strictly before any body
read or send event appears, so no body byte can precede or interleave
with the header; and the 404 and 400 traces consist exactly of the
issued and completed error send (the completion is awaited before the
responder returns). -/
theorem c8_header_before_body (mime : String → Option String)
    (fs : String → OpenResult) (filename req : String) :
    (∀ content : List Nat, fs (normFile filename) = OpenResult.regular content →
       ∀ (j : Nat) (e : Ev), (http_send_file mime fs filename)[j]? = some e →
         isBodyEv e = true →
         2 < j ∧ (http_send_file mime fs filename)[2]?
             = some (Ev.strSendDone
                 (http_200_hdr (contentTypeOf mime (normFile filename)) content.length)))
    ∧ ((∀ content : List Nat, fs (normFile filename) ≠ OpenResult.regular content) →
       http_send_file mime fs filename
         = [Ev.openEv (normFile filename), Ev.strSendIssue http_404_hdr,
            Ev.strSendDone http_404_hdr, Ev.closeInfd])
    ∧ (startsWithGET req = false →
       serve mime fs (.ok req)
         = .ok [Ev.strSendIssue http_400_hdr, Ev.strSendDone http_400_hdr]) := by
  refine ⟨?_, http_send_file_err mime fs filename, ?_⟩
  · intro content hreg j e hj hbody
    rw [http_send_file_reg mime fs filename content hreg] at hj ⊢
    refine ⟨?_, by rw [List.getElem?_cons_succ, List.getElem?_cons_succ,
      List.getElem?_cons_zero]⟩
    rcases j with _ | _ | _ | j
    · rw [List.getElem?_cons_zero] at hj
      obtain rfl := Option.some_inj.mp hj
      simp [isBodyEv] at hbody
    · rw [List.getElem?_cons_succ, List.getElem?_cons_zero] at hj
      obtain rfl := Option.some_inj.mp hj
      simp [isBodyEv] at hbody
    · rw [List.getElem?_cons_succ, List.getElem?_cons_succ,
        List.getElem?_cons_zero] at hj
      obtain rfl := Option.some_inj.mp hj
      simp [isBodyEv] at hbody
    · omega
  · intro hng
    rw [serve_ok_eq, if_neg (by simp [hng])]

/-- C8 witness on a 1-byte file: the first body event sits at position 3,
after the completed header send at position 2. -/
theorem c8_header_before_body_witness :
    oneFs (normFile "./one") = OpenResult.regular [7]
    ∧ (http_send_file noMime oneFs "./one")[3]? = some (Ev.readIssue 0 0 1)
    ∧ isBodyEv (Ev.readIssue 0 0 1) = true
    ∧ (2 < 3 ∧ (http_send_file noMime oneFs "./one")[2]?
        = some (Ev.strSendDone
            (http_200_hdr (contentTypeOf noMime (normFile "./one"))
              ([7] : List Nat).length))) := by
  have h1 : sendLoop [7] ([7] : List Nat).length 0 0 = winPair 0 0 1 [7] := by
    rw [sendLoop_eq, if_neg (by decide), if_pos (by decide)]
    rfl
  have ht : http_send_file noMime oneFs "./one"
      = Ev.openEv (normFile "./one")
        :: Ev.strSendIssue (http_200_hdr (contentTypeOf noMime (normFile "./one"))
            ([7] : List Nat).length)
        :: Ev.strSendDone (http_200_hdr (contentTypeOf noMime (normFile "./one"))
            ([7] : List Nat).length)
        :: (winPair 0 0 1 [7] ++ [Ev.closeInfd]) := by
    rw [http_send_file_reg noMime oneFs "./one" [7] rfl, h1]
  refine ⟨rfl, ?_, rfl, ?_⟩
  · rw [ht]
    rfl
  · exact (c8_header_before_body noMime oneFs "./one" "x").1 [7] rfl 3
      (Ev.readIssue 0 0 1) (by rw [ht]; rfl) rfl

/-- One-step unfolding of the fallible streaming loop. -/
theorem sendLoopE_eq (fail : Nat → Bool) (content : List Nat)
    (size offset w k : Nat) :
    sendLoopE fail content size offset w k
      = if size - offset > BUF_SIZE then
          if fail k || fail (k + 1) then
            ([Ev.readIssue w offset BUF_SIZE, Ev.sendIssue w BUF_SIZE], some .io)
          else
            ((winPair w offset BUF_SIZE content ++ [Ev.delayEv])
                ++ (sendLoopE fail content size (offset + BUF_SIZE) (w + 1) (k + 2)).1,
             (sendLoopE fail content size (offset + BUF_SIZE) (w + 1) (k + 2)).2)
        else if size - offset > 0 then
          if fail k || fail (k + 1) then
            ([Ev.readIssue w offset (size - offset), Ev.sendIssue w (size - offset)],
             some .io)
          else (winPair w offset (size - offset) content, none)
        else ([], none) := by
  rw [sendLoopE]

/-- No handler-level event happens inside the fallible streaming loop,
on success or on a failing pair. -/
theorem sendLoopE_no_handler (fail : Nat → Bool) (content : List Nat) (size : Nat) :
    ∀ d offset w k, size - offset = d →
      ∀ e ∈ (sendLoopE fail content size offset w k).1, isHandlerEv e = false := by
  intro d
  induction d using Nat.strong_induction_on with
  | _ d ih =>
    intro offset w k hd e he
    have hB : BUF_SIZE = 1024 := rfl
    rw [sendLoopE_eq] at he
    by_cases h1 : size - offset > BUF_SIZE
    · rw [if_pos h1] at he
      by_cases hf : (fail k || fail (k + 1)) = true
      · rw [if_pos hf] at he
        replace he : e ∈ [Ev.readIssue w offset BUF_SIZE, Ev.sendIssue w BUF_SIZE] := he
        simp only [List.mem_cons, List.mem_singleton, List.not_mem_nil, or_false] at he
        rcases he with rfl | rfl <;> rfl
      · rw [if_neg hf] at he
        replace he : e ∈ (winPair w offset BUF_SIZE content ++ [Ev.delayEv])
            ++ (sendLoopE fail content size (offset + BUF_SIZE) (w + 1) (k + 2)).1 := he
        rcases List.mem_append.mp he with he | he
        · rcases List.mem_append.mp he with he | he
          · simp only [winPair, List.mem_cons, List.mem_singleton,
              List.not_mem_nil, or_false] at he
            rcases he with rfl | rfl | rfl | rfl <;> rfl
          · simp only [List.mem_singleton] at he
            subst he
            rfl
        · exact ih (size - (offset + BUF_SIZE)) (by omega)
            (offset + BUF_SIZE) (w + 1) (k + 2) rfl e he
    · rw [if_neg h1] at he
      by_cases h2 : size - offset > 0
      · rw [if_pos h2] at he
        by_cases hf : (fail k || fail (k + 1)) = true
        · rw [if_pos hf] at he
          replace he : e ∈ [Ev.readIssue w offset (size - offset),
              Ev.sendIssue w (size - offset)] := he
          simp only [List.mem_cons, List.mem_singleton, List.not_mem_nil,
            or_false] at he
          rcases he with rfl | rfl <;> rfl
        · rw [if_neg hf] at he
          replace he : e ∈ winPair w offset (size - offset) content := he
          simp only [winPair, List.mem_cons, List.mem_singleton,
            List.not_mem_nil, or_false] at he
          rcases he with rfl | rfl | rfl | rfl <;> rfl
      · rw [if_neg h2] at he
        replace he : e ∈ ([] : List Ev) := he
        simp at he

/-- Branch form of the fallible responder on an existing regular file. -/
theorem http_send_fileE_reg (mime : String → Option String)
    (fs : String → OpenResult) (fail : Nat → Bool) (f : String)
    (content : List Nat) (h : fs (normFile f) = .regular content) :
    http_send_fileE mime fs fail f
      = if fail 0 then
          ([Ev.openEv (normFile f),
            Ev.strSendIssue (http_200_hdr (contentTypeOf mime (normFile f)) content.length),
            Ev.closeInfd], some .io)
        else
          (Ev.openEv (normFile f)
            :: Ev.strSendIssue (http_200_hdr (contentTypeOf mime (normFile f)) content.length)
            :: Ev.strSendDone (http_200_hdr (contentTypeOf mime (normFile f)) content.length)
            :: ((sendLoopE fail content content.length 0 0 1).1 ++ [Ev.closeInfd]),
           (sendLoopE fail content content.length 0 0 1).2) := by
  unfold http_send_fileE
  rw [h]

/-- Branch form of the fallible responder on a failed open/stat or a
non-regular target. -/
theorem http_send_fileE_err (mime : String → Option String)
    (fs : String → OpenResult) (fail : Nat → Bool) (f : String)
    (h : ∀ content, fs (normFile f) ≠ .regular content) :
    http_send_fileE mime fs fail f
      = if fail 0 then
          ([Ev.openEv (normFile f), Ev.strSendIssue http_404_hdr,
            Ev.closeInfd], some .io)
        else
          ([Ev.openEv (normFile f), Ev.strSendIssue http_404_hdr,
            Ev.strSendDone http_404_hdr, Ev.closeInfd], none) := by
  unfold http_send_fileE
  cases hfs : fs (normFile f) with
  | regular c => exact absurd hfs (h c)
  | openFail => rfl
  | statFail => rfl
  | notRegular => rfl

/-- Definitional reduction of the fallible `serve` on a successful
receive. -/
theorem serveE_ok_eq (mime : String → Option String) (fs : String → OpenResult)
    (fail : Nat → Bool) (req : String) :
    serveE mime fs fail (.ok req)
      = if startsWithGET req = true then
          match parsePath req with
          | .error e => ([], some e)
          | .ok file => http_send_fileE mime fs fail file
        else
          if fail 0 = true then ([Ev.strSendIssue http_400_hdr], some .io)
          else ([Ev.strSendIssue http_400_hdr, Ev.strSendDone http_400_hdr], none) := rfl

/-- No handler-level event appears in the fallible `serve` trace, on any
outcome of the oracle. -/
theorem serveE_no_handler (mime : String → Option String)
    (fs : String → OpenResult) (fail : Nat → Bool) (recv : Except Unit String) :
    ∀ e ∈ (serveE mime fs fail recv).1, isHandlerEv e = false := by
  intro e he
  cases recv with
  | error u => simp [serveE] at he
  | ok req =>
    rw [serveE_ok_eq] at he
    by_cases hg : startsWithGET req
    · rw [if_pos hg] at he
      cases hp : parsePath req with
      | error e2 =>
        rw [hp] at he
        simp at he
      | ok f =>
        rw [hp] at he
        replace he : e ∈ (http_send_fileE mime fs fail f).1 := he
        by_cases hreg : ∃ c, fs (normFile f) = OpenResult.regular c
        · obtain ⟨c, hc⟩ := hreg
          rw [http_send_fileE_reg mime fs fail f c hc] at he
          by_cases hf : fail 0 = true
          · rw [if_pos hf] at he
            replace he : e ∈ [Ev.openEv (normFile f),
                Ev.strSendIssue (http_200_hdr (contentTypeOf mime (normFile f)) c.length),
                Ev.closeInfd] := he
            simp only [List.mem_cons, List.mem_singleton, List.not_mem_nil,
              or_false] at he
            rcases he with rfl | rfl | rfl <;> rfl
          · rw [if_neg hf] at he
            replace he : e ∈ Ev.openEv (normFile f)
                :: Ev.strSendIssue (http_200_hdr (contentTypeOf mime (normFile f)) c.length)
                :: Ev.strSendDone (http_200_hdr (contentTypeOf mime (normFile f)) c.length)
                :: ((sendLoopE fail c c.length 0 0 1).1 ++ [Ev.closeInfd]) := he
            simp only [List.mem_cons, List.mem_append, List.mem_singleton,
              List.not_mem_nil, or_false] at he
            rcases he with rfl | rfl | rfl | hL | rfl
            · rfl
            · rfl
            · rfl
            · exact sendLoopE_no_handler fail c c.length (c.length - 0) 0 0 1 rfl e hL
            · rfl
        · have herr : ∀ content, fs (normFile f) ≠ OpenResult.regular content :=
            fun c hc => hreg ⟨c, hc⟩
          rw [http_send_fileE_err mime fs fail f herr] at he
          by_cases hf : fail 0 = true
          · rw [if_pos hf] at he
            replace he : e ∈ [Ev.openEv (normFile f), Ev.strSendIssue http_404_hdr,
                Ev.closeInfd] := he
            simp only [List.mem_cons, List.mem_singleton, List.not_mem_nil,
              or_false] at he
            rcases he with rfl | rfl | rfl <;> rfl
          · rw [if_neg hf] at he
            replace he : e ∈ [Ev.openEv (normFile f), Ev.strSendIssue http_404_hdr,
                Ev.strSendDone http_404_hdr, Ev.closeInfd] := he
            simp only [List.mem_cons, List.mem_singleton, List.not_mem_nil,
              or_false] at he
            rcases he with rfl | rfl | rfl | rfl <;> rfl
    · rw [if_neg hg] at he
      by_cases hf : fail 0 = true
      · rw [if_pos hf] at he
        replace he : e ∈ [Ev.strSendIssue http_400_hdr] := he
        simp only [List.mem_singleton] at he
        subst he
        rfl
      · rw [if_neg hf] at he
        replace he : e ∈ [Ev.strSendIssue http_400_hdr,
            Ev.strSendDone http_400_hdr] := he
        simp only [List.mem_cons, List.mem_singleton, List.not_mem_nil,
          or_false] at he
        rcases he with rfl | rfl <;> rfl

/-- With the all-success oracle, the fallible loop is the approved loop
with no surfaced failure. -/
theorem sendLoopE_noFail (content : List Nat) (size : Nat) :
    ∀ d offset w k, size - offset = d →
      sendLoopE (fun _ => false) content size offset w k
        = (sendLoop content size offset w, none) := by
  intro d
  induction d using Nat.strong_induction_on with
  | _ d ih =>
    intro offset w k hd
    have hB : BUF_SIZE = 1024 := rfl
    rw [sendLoopE_eq, sendLoop_eq]
    by_cases h1 : size - offset > BUF_SIZE
    · rw [if_pos h1, if_pos h1, if_neg (by decide)]
      rw [ih (size - (offset + BUF_SIZE)) (by omega)
        (offset + BUF_SIZE) (w + 1) (k + 2) rfl]
    · rw [if_neg h1, if_neg h1]
      by_cases h2 : size - offset > 0
      · rw [if_pos h2, if_pos h2, if_neg (by decide)]
      · rw [if_neg h2, if_neg h2]

/-- With the all-success oracle, the fallible responder is the approved
responder with no surfaced failure. -/
theorem http_send_fileE_noFail (mime : String → Option String)
    (fs : String → OpenResult) (f : String) :
    http_send_fileE mime fs (fun _ => false) f
      = (http_send_file mime fs f, none) := by
  by_cases hreg : ∃ c, fs (normFile f) = OpenResult.regular c
  · obtain ⟨c, hc⟩ := hreg
    rw [http_send_fileE_reg mime fs (fun _ => false) f c hc, if_neg (by decide),
      http_send_file_reg mime fs f c hc,
      sendLoopE_noFail c c.length (c.length - 0) 0 0 1 rfl]
  · have herr : ∀ content, fs (normFile f) ≠ OpenResult.regular content :=
      fun c hc => hreg ⟨c, hc⟩
    rw [http_send_fileE_err mime fs (fun _ => false) f herr, if_neg (by decide),
      http_send_file_err mime fs f herr]

/-- With the all-success oracle, the fallible `serve` refines the
approved `serve`: same trace on success, same error with an empty trace
on failure. -/
theorem serveE_noFail (mime : String → Option String) (fs : String → OpenResult)
    (recv : Except Unit String) :
    serveE mime fs (fun _ => false) recv
      = (match serve mime fs recv with
         | .ok evs => (evs, none)
         | .error e => ([], some e)) := by
  cases recv with
  | error u => rfl
  | ok req =>
    rw [serveE_ok_eq, serve_ok_eq]
    by_cases hg : startsWithGET req
    · rw [if_pos hg, if_pos hg]
      cases hp : parsePath req with
      | error e2 => rfl
      | ok f => exact http_send_fileE_noFail mime fs f
    · rw [if_neg hg, if_neg hg, if_neg (by decide)]

/-- With the all-success oracle, the fallible handler is the approved
handler. -/
theorem handleE_noFail (mime : String → Option String) (fs : String → OpenResult)
    (recv : Except Unit String) :
    handleE mime fs (fun _ => false) recv = handle mime fs recv := by
  unfold handleE handle
  rw [serveE_noFail]
  cases hs : serve mime fs recv with
  | ok evs =>
    show Ev.incrCount :: ((evs ++ []) ++ [Ev.closeClient, Ev.decrCount])
        = Ev.incrCount :: (evs ++ [Ev.closeClient, Ev.decrCount])
    rw [List.append_nil]
  | error e => rfl

/-- C3 (confirmed): the connection handler closes the client descriptor
exactly once and increments and decrements the running-connection counter
exactly once on every exit path — successful serve, unsupported-request
response, the parser's out-of-range, a failed receive, and every I/O
failure the responder or pipeline can raise under any per-operation
outcome oracle — and a failure never propagates: it is converted into
exactly one logged diagnostic inside the handler's trace. -/
theorem c3_handler_cleanup (mime : String → Option String)
    (fs : String → OpenResult) (fail : Nat → Bool) (recv : Except Unit String) :
    (handleE mime fs fail recv).count Ev.closeClient = 1
    ∧ (handleE mime fs fail recv).count Ev.incrCount = 1
    ∧ (handleE mime fs fail recv).count Ev.decrCount = 1
    ∧ ∀ e, (serveE mime fs fail recv).2 = some e →
        (handleE mime fs fail recv).count Ev.logCrash = 1 := by
  have hno := serveE_no_handler mime fs fail recv
  have hzero : ∀ a : Ev, isHandlerEv a = true →
      ((serveE mime fs fail recv).1).count a = 0 := by
    intro a ha
    rw [List.count_eq_zero]
    intro hm
    rw [hno a hm] at ha
    simp at ha
  rcases hcr : (serveE mime fs fail recv).2 with _ | e0
  · have ht : handleE mime fs fail recv
        = Ev.incrCount :: ((serveE mime fs fail recv).1
            ++ [Ev.closeClient, Ev.decrCount]) := by
      unfold handleE
      rw [hcr, List.append_nil]
    rw [ht]
    refine ⟨?_, ?_, ?_, ?_⟩
    · rw [List.count_cons_of_ne (by decide), List.count_append,
        hzero Ev.closeClient rfl]
      decide
    · rw [List.count_cons_self, List.count_append, hzero Ev.incrCount rfl]
      decide
    · rw [List.count_cons_of_ne (by decide), List.count_append,
        hzero Ev.decrCount rfl]
      decide
    · intro e he
      exact Option.noConfusion he
  · have ht : handleE mime fs fail recv
        = Ev.incrCount :: (((serveE mime fs fail recv).1 ++ [Ev.logCrash])
            ++ [Ev.closeClient, Ev.decrCount]) := by
      unfold handleE
      rw [hcr]
    rw [ht]
    refine ⟨?_, ?_, ?_, ?_⟩
    · rw [List.count_cons_of_ne (by decide), List.count_append,
        List.count_append, hzero Ev.closeClient rfl]
      decide
    · rw [List.count_cons_self, List.count_append, List.count_append,
        hzero Ev.incrCount rfl]
      decide
    · rw [List.count_cons_of_ne (by decide), List.count_append,
        List.count_append, hzero Ev.decrCount rfl]
      decide
    · intro e he
      rw [List.count_cons_of_ne (by decide), List.count_append,
        List.count_append, hzero Ev.logCrash rfl]
      decide

/-- C3 witness at a pipeline I/O failure: serving `GET /one` against the
1-byte regular file with the oracle failing the first read/send pair,
the responder's transfer fails mid-flight, yet the handler closes the
client descriptor exactly once, balances the counter, and logs exactly
one diagnostic. -/
theorem c3_handler_cleanup_witness :
    (serveE noMime oneFs oneFail (.ok "GET /one")).2 = some SrvError.io
    ∧ (handleE noMime oneFs oneFail (.ok "GET /one")).count Ev.closeClient = 1
    ∧ (handleE noMime oneFs oneFail (.ok "GET /one")).count Ev.incrCount = 1
    ∧ (handleE noMime oneFs oneFail (.ok "GET /one")).count Ev.decrCount = 1
    ∧ (handleE noMime oneFs oneFail (.ok "GET /one")).count Ev.logCrash = 1 := by
  have hsl : sendLoopE oneFail [7] ([7] : List Nat).length 0 0 1
      = ([Ev.readIssue 0 0 1, Ev.sendIssue 0 1], some SrvError.io) := by
    rw [sendLoopE_eq, if_neg (by decide), if_pos (by decide), if_pos (by decide)]
    rfl
  have hs : (serveE noMime oneFs oneFail (.ok "GET /one")).2 = some SrvError.io := by
    rw [serveE_ok_eq, if_pos (by decide),
      show parsePath "GET /one" = .ok "./one" from by decide]
    show (http_send_fileE noMime oneFs oneFail "./one").2 = some SrvError.io
    rw [http_send_fileE_reg noMime oneFs oneFail "./one" [7] rfl, if_neg (by decide)]
    show (sendLoopE oneFail [7] ([7] : List Nat).length 0 0 1).2 = some SrvError.io
    rw [hsl]
  exact ⟨hs, (c3_handler_cleanup noMime oneFs oneFail (.ok "GET /one")).1,
    (c3_handler_cleanup noMime oneFs oneFail (.ok "GET /one")).2.1,
    (c3_handler_cleanup noMime oneFs oneFail (.ok "GET /one")).2.2.1,
    (c3_handler_cleanup noMime oneFs oneFail (.ok "GET /one")).2.2.2
      SrvError.io hs⟩

/-- C7, counterexample: the three-byte request `GET` is received
successfully (no transport failure) and is not served with a 200
response, yet the connection closes with no response bytes at all: the
parser's substring extraction fails, the handler catches it and closes
without sending the 400 or 404 payload. -/
theorem c7_counterexample :
    serve noMime emptyFs (.ok "GET") = .error SrvError.outOfRange
    ∧ handle noMime emptyFs (.ok "GET")
        = [Ev.incrCount, Ev.logCrash, Ev.closeClient, Ev.decrCount]
    ∧ respBytes (handle noMime emptyFs (.ok "GET")) = [] := by
  refine ⟨by decide, by decide, by decide⟩

/-- C7 (amended): for every successfully received request that either
fails the GET prefix test or has length at least 4 — that is, every
request except the bare three-byte `GET`, whose parse failure closes the
connection with no response — the handler's trace completes exactly one
header send before the close: the fixed 400 payload, the fixed 404
payload, or a 200 header; so every malformed or disallowed such request
gets a well-formed zero-body error response before the connection is
closed. -/
theorem c7_error_or_200 (mime : String → Option String)
    (fs : String → OpenResult) (req : String)
    (h : startsWithGET req = false ∨ 4 ≤ req.data.length) :
    ∃ evs, handle mime fs (.ok req)
        = Ev.incrCount :: (evs ++ [Ev.closeClient, Ev.decrCount])
      ∧ (headerSends evs = [http_400_hdr] ∨ headerSends evs = [http_404_hdr]
         ∨ ∃ ct n, headerSends evs = [http_200_hdr ct n]) := by
  by_cases hg : startsWithGET req
  · have h4 : 4 ≤ req.data.length := by
      rcases h with h | h
      · rw [hg] at h
        exact absurd h (by decide)
      · exact h
    obtain ⟨f, hf⟩ : ∃ f, parsePath req = .ok f := by
      unfold parsePath
      cases hsp : svFind req.data ' ' 4 with
      | some i2 =>
        have hsub : svSubstr req.data 4 (i2 - 4)
            = .ok ((req.data.drop 4).take (i2 - 4)) := by
          unfold svSubstr
          rw [if_neg (by omega)]
        show ∃ f, (match svSubstr req.data 4 (i2 - 4) with
              | Except.error e => Except.error e
              | Except.ok cs => Except.ok (String.mk ('.' :: cs))) = Except.ok f
        rw [hsub]
        exact ⟨_, rfl⟩
      | none =>
        have hsub : svSubstr req.data 4 (NPOS - 4)
            = .ok ((req.data.drop 4).take (NPOS - 4)) := by
          unfold svSubstr
          rw [if_neg (by omega)]
        show ∃ f, (match svSubstr req.data 4 (NPOS - 4) with
              | Except.error e => Except.error e
              | Except.ok cs => Except.ok (String.mk ('.' :: cs))) = Except.ok f
        rw [hsub]
        exact ⟨_, rfl⟩
    refine ⟨http_send_file mime fs f, ?_, ?_⟩
    · unfold handle
      rw [serve_ok_eq, if_pos hg, hf]
    · by_cases hreg : ∃ content, fs (normFile f) = OpenResult.regular content
      · obtain ⟨c, hc⟩ := hreg
        exact Or.inr (Or.inr ⟨contentTypeOf mime (normFile f), c.length,
          headerSends_reg mime fs f c hc⟩)
      · refine Or.inr (Or.inl (headerSends_err mime fs f ?_))
        intro content hcon
        exact hreg ⟨content, hcon⟩
  · refine ⟨[Ev.strSendIssue http_400_hdr, Ev.strSendDone http_400_hdr], ?_, Or.inl rfl⟩
    unfold handle
    rw [serve_ok_eq, if_neg hg]

/-- C7 witness at the concrete request `POST`. -/
theorem c7_error_or_200_witness :
    startsWithGET "POST" = false
    ∧ ∃ evs, handle noMime emptyFs (.ok "POST")
        = Ev.incrCount :: (evs ++ [Ev.closeClient, Ev.decrCount])
      ∧ (headerSends evs = [http_400_hdr] ∨ headerSends evs = [http_404_hdr]
         ∨ ∃ ct n, headerSends evs = [http_200_hdr ct n]) :=
  ⟨by decide, c7_error_or_200 noMime emptyFs "POST" (Or.inl (by decide))⟩

/-- Position of a window event inside the responder trace: it can only
sit inside the streaming loop, after the three header-phase events. -/
theorem winEv_pos (content : List Nat) {e0 e1 e2 a : Ev} {k i : Nat}
    (hi : (e0 :: e1 :: e2 :: (sendLoop content content.length 0 0
        ++ [Ev.closeInfd]))[i]? = some a)
    (h0 : winOf e0 = none) (h1 : winOf e1 = none) (h2 : winOf e2 = none)
    (hw : winOf a = some k) :
    3 ≤ i ∧ (sendLoop content content.length 0 0)[i - 3]? = some a := by
  rcases i with _ | _ | _ | i
  · rw [List.getElem?_cons_zero] at hi
    obtain rfl := Option.some_inj.mp hi
    rw [h0] at hw
    exact Option.noConfusion hw
  · rw [List.getElem?_cons_succ, List.getElem?_cons_zero] at hi
    obtain rfl := Option.some_inj.mp hi
    rw [h1] at hw
    exact Option.noConfusion hw
  · rw [List.getElem?_cons_succ, List.getElem?_cons_succ,
      List.getElem?_cons_zero] at hi
    obtain rfl := Option.some_inj.mp hi
    rw [h2] at hw
    exact Option.noConfusion hw
  · simp only [List.getElem?_cons_succ] at hi
    refine ⟨by omega, ?_⟩
    rcases getElem?_split hi with ⟨hlt, hL⟩ | ⟨hge, hR⟩
    · exact hL
    · have hm := mem_of_getElem' hR
      simp only [List.mem_singleton] at hm
      subst hm
      simp [winOf] at hw

/-- C2 (confirmed): in the streaming pipeline the read of window N+1 is
issued strictly after both the completed read and the completed send of
window N: each iteration's all-complete wait over the causally linked
read/send pair finishes before the loop advances, so the single reusable
buffer is never overwritten while a prior send may still observe it. -/
theorem c2_no_overlapping_windows (mime : String → Option String)
    (fs : String → OpenResult) (filename : String) (content : List Nat)
    (n i j off len off2 len2 : Nat) (bs : List Nat)
    (h : fs (normFile filename) = OpenResult.regular content)
    (hi : (http_send_file mime fs filename)[i]? = some (Ev.readIssue (n + 1) off len))
    (hj : (http_send_file mime fs filename)[j]? = some (Ev.sendDone n bs)
        ∨ (http_send_file mime fs filename)[j]? = some (Ev.readDone n off2 len2)) :
    j < i := by
  rw [http_send_file_reg mime fs filename content h] at hi hj
  have hii := winEv_pos content hi rfl rfl rfl rfl
  rcases hj with hj | hj
  · have hjj := winEv_pos content hj rfl rfl rfl rfl
    have := sendLoop_order content content.length (content.length - 0) 0 0 rfl
      (Ev.sendDone n bs) (Ev.readIssue (n + 1) off len) n (n + 1) (j - 3) (i - 3)
      rfl rfl (by omega) hjj.2 hii.2
    omega
  · have hjj := winEv_pos content hj rfl rfl rfl rfl
    have := sendLoop_order content content.length (content.length - 0) 0 0 rfl
      (Ev.readDone n off2 len2) (Ev.readIssue (n + 1) off len) n (n + 1) (j - 3) (i - 3)
      rfl rfl (by omega) hjj.2 hii.2
    omega

/-- Unfolded two-window run of the loop, for files of at most two
windows. -/
theorem sendLoop_two_windows (c : List Nat) (h1 : BUF_SIZE < c.length)
    (h2 : c.length ≤ 2 * BUF_SIZE) :
    sendLoop c c.length 0 0
      = (winPair 0 0 BUF_SIZE c ++ [Ev.delayEv])
          ++ winPair 1 BUF_SIZE (c.length - BUF_SIZE) c := by
  have hB : BUF_SIZE = 1024 := rfl
  rw [sendLoop_eq, if_pos (by omega)]
  rw [sendLoop_eq]
  rw [if_neg (by omega), if_pos (by omega)]
  norm_num

/-- C2 witness on a 1025-byte file: window 1's read is issued at trace
position 8, after window 0's completed read at position 5 (and completed
send at position 6). -/
theorem c2_no_overlapping_windows_witness :
    big2Fs (normFile "./big2") = OpenResult.regular (List.replicate 1025 0)
    ∧ (http_send_file noMime big2Fs "./big2")[8]? = some (Ev.readIssue (0 + 1) 1024 1)
    ∧ ((http_send_file noMime big2Fs "./big2")[5]? = some (Ev.sendDone 0 ([] : List Nat))
        ∨ (http_send_file noMime big2Fs "./big2")[5]? = some (Ev.readDone 0 0 1024))
    ∧ 5 < 8 := by
  have ht : http_send_file noMime big2Fs "./big2"
      = Ev.openEv (normFile "./big2")
        :: Ev.strSendIssue (http_200_hdr (contentTypeOf noMime (normFile "./big2"))
            (List.replicate (1025 : Nat) (0 : Nat)).length)
        :: Ev.strSendDone (http_200_hdr (contentTypeOf noMime (normFile "./big2"))
            (List.replicate (1025 : Nat) (0 : Nat)).length)
        :: (((winPair 0 0 BUF_SIZE (List.replicate 1025 0) ++ [Ev.delayEv])
            ++ winPair 1 BUF_SIZE ((List.replicate (1025 : Nat) (0 : Nat)).length - BUF_SIZE)
                (List.replicate 1025 0)) ++ [Ev.closeInfd]) := by
    rw [http_send_file_reg noMime big2Fs "./big2" (List.replicate 1025 0) rfl]
    rw [sendLoop_two_windows (List.replicate 1025 0) (by norm_num [BUF_SIZE])
      (by norm_num [BUF_SIZE])]
  have hi : (http_send_file noMime big2Fs "./big2")[8]?
      = some (Ev.readIssue (0 + 1) 1024 1) := by
    rw [ht]
    rfl
  have hj : (http_send_file noMime big2Fs "./big2")[5]?
      = some (Ev.readDone 0 0 1024) := by
    rw [ht]
    rfl
  exact ⟨rfl, hi, Or.inr hj, c2_no_overlapping_windows noMime big2Fs "./big2"
    (List.replicate 1025 0) 0 8 5 1024 1 0 1024 [] rfl hi (Or.inr hj)⟩

end FileServer
